import Mathlib

/-!
Verification of the transit-IP registration and lookup mechanism of the
app-connector stub (`Conn25` in package `appc`), and of the
`IsClosedPipeError` error classifiers.

Shallow embedding conventions:
* `tailcfg.NodeID` is modelled as `Nat` (an opaque peer identifier compared
  only for equality).
* `netip.Addr` is modelled as `Nat`, with `0` standing for the zero
  (invalid) `netip.Addr{}` value that Go map indexing returns for a
  missing key.
* Go maps are modelled as association lists with a replace-on-insert
  update (`setA`) and first-match lookup (`lookupA`); a Go map index
  expression `m[k]` that yields the zero value on a missing key is
  modelled as `(lookupA m k).getD zeroValue`.
* The `transitIPs` field starts out as the nil map, modelled by
  `Option`: `none` is the nil map, `some m` a made map.
-/

set_option autoImplicit false

/-- Peer identifier (`tailcfg.NodeID`), opaque, compared for equality only. -/
abbrev NodeID := Nat

/-- Network address (`netip.Addr`); `0` models the zero (invalid) address. -/
abbrev Addr := Nat

/-- The zero `netip.Addr{}` value, returned by Go map indexing on a miss. -/
def zeroAddr : Addr := 0

/-- First-match lookup in an association list, modelling Go map read `m[k]`
(as an `Option`, before zero-value defaulting). -/
def lookupA {β : Type} (m : List (Nat × β)) (k : Nat) : Option β :=
  match m with
  | [] => none
  | (k1, v) :: rest => if k1 = k then some v else lookupA rest k

/-- Replace-or-append update of an association list, modelling Go map
assignment `m[k] = v`. -/
def setA {β : Type} (m : List (Nat × β)) (k : Nat) (v : β) : List (Nat × β) :=
  match m with
  | [] => [(k, v)]
  | (k1, v1) :: rest => if k1 = k then (k, v) :: rest else (k1, v1) :: setA rest k v

/-- `TransitIPRequest`: a single transit-IP mapping request. -/
structure TransitIPRequest where
  transitIP : Addr
  destinationIP : Addr
deriving DecidableEq

/-- `ConnectorTransitIPRequest`: zero or more mapping requests. -/
structure ConnectorTransitIPRequest where
  transitIPs : List TransitIPRequest
deriving DecidableEq

/-- `TransitIPResponseCode`: success or failure status of one request. -/
inductive TransitIPResponseCode where
  | OK
  | OtherFailure
deriving DecidableEq

/-- `TransitIPResponse`: the outcome for one `TransitIPRequest`. -/
structure TransitIPResponse where
  code : TransitIPResponseCode
  message : String
deriving DecidableEq

/-- `ConnectorTransitIPResponse`: one outcome per requested mapping, in
request order. -/
structure ConnectorTransitIPResponse where
  transitIPs : List TransitIPResponse
deriving DecidableEq

/-- The fixed diagnostic for an intra-batch duplicate transit address. -/
def dupeTransitIPMessage : String :=
  "Duplicate transit address in ConnectorTransitIPRequest"

/-- `Conn25` registry state: the `transitIPs` field
`map[tailcfg.NodeID]map[netip.Addr]netip.Addr`, `none` while still nil.
(The mutex has no data content; lock placement is modelled separately by
the event traces below.) -/
structure Conn25 where
  transitIPs : Option (List (NodeID × List (Addr × Addr)))
deriving DecidableEq

/-- `Conn25.handleTransitIPRequest`: make the outer map if nil, make the
peer submap if absent, store `transitIP -> destinationIP`, return the
zero `TransitIPResponse` (code `OK`, empty message). Returns the updated
state paired with the response. -/
def Conn25.handleTransitIPRequest (c : Conn25) (nid : NodeID)
    (tipr : TransitIPRequest) : Conn25 × TransitIPResponse :=
  let m := c.transitIPs.getD []
  let peerMap := (lookupA m nid).getD []
  (⟨some (setA m nid (setA peerMap tipr.transitIP tipr.destinationIP))⟩,
    ⟨.OK, ""⟩)

/-- The loop body of `Conn25.HandleConnectorTransitIPRequest`: walk the
request pairs in order carrying the `seen` set of transit addresses; a
pair whose transit address was already seen yields the `OtherFailure`
duplicate outcome and no state change, otherwise the pair is applied via
`handleTransitIPRequest` and its address marked seen. -/
def Conn25.runBatch (c : Conn25) (nid : NodeID) (seen : List Addr) :
    List TransitIPRequest → Conn25 × List TransitIPResponse
  | [] => (c, [])
  | each :: rest =>
    if each.transitIP ∈ seen then
      ((c.runBatch nid seen rest).1,
        ⟨.OtherFailure, dupeTransitIPMessage⟩ :: (c.runBatch nid seen rest).2)
    else
      (((c.handleTransitIPRequest nid each).1.runBatch nid
          (each.transitIP :: seen) rest).1,
        (c.handleTransitIPRequest nid each).2 ::
          ((c.handleTransitIPRequest nid each).1.runBatch nid
            (each.transitIP :: seen) rest).2)

/-- `Conn25.HandleConnectorTransitIPRequest`: process a batch starting
from an empty `seen` set, producing the updated state and the response. -/
def Conn25.HandleConnectorTransitIPRequest (c : Conn25) (nid : NodeID)
    (ctipr : ConnectorTransitIPRequest) : Conn25 × ConnectorTransitIPResponse :=
  ((c.runBatch nid [] ctipr.transitIPs).1,
    ⟨(c.runBatch nid [] ctipr.transitIPs).2⟩)

/-- `Conn25.transitIPTarget`: `c.transitIPs[nid][tip]` with Go zero-value
semantics — a nil or missing submap and a missing transit key both yield
the zero address. -/
def Conn25.transitIPTarget (c : Conn25) (nid : NodeID) (tip : Addr) : Addr :=
  (lookupA ((lookupA (c.transitIPs.getD []) nid).getD []) tip).getD zeroAddr

/-! ### Association-list lemmas -/

theorem lookupA_setA_self {β : Type} (m : List (Nat × β)) (k : Nat) (v : β) :
    lookupA (setA m k v) k = some v := by
  induction m with
  | nil => simp [setA, lookupA]
  | cons p rest ih =>
    by_cases h : p.1 = k <;> simp [setA, lookupA, h, ih]

theorem lookupA_setA_ne {β : Type} (m : List (Nat × β)) (k k1 : Nat) (v : β)
    (h : k1 ≠ k) : lookupA (setA m k v) k1 = lookupA m k1 := by
  have hk : ¬k = k1 := fun hk1 => h hk1.symm
  induction m with
  | nil => simp [setA, lookupA, hk]
  | cons p rest ih =>
    by_cases hp : p.1 = k
    · subst hp
      simp [setA, lookupA, hk]
    · simp [setA, lookupA, hp, h, ih]

theorem setA_ne_nil {β : Type} (m : List (Nat × β)) (k : Nat) (v : β) :
    setA m k v ≠ [] := by
  cases m with
  | nil => simp [setA]
  | cons p rest =>
    by_cases h : p.1 = k <;> simp [setA, h]

theorem mem_setA {β : Type} (m : List (Nat × β)) (k : Nat) (v : β)
    (p : Nat × β) (hp : p ∈ setA m k v) : p ∈ m ∨ p = (k, v) := by
  induction m with
  | nil => simp [setA] at hp; simp [hp]
  | cons q rest ih =>
    by_cases h : q.1 = k
    · simp [setA, h] at hp
      rcases hp with hp | hp
      · exact Or.inr (by simp [hp])
      · exact Or.inl (List.mem_cons_of_mem _ hp)
    · simp only [setA, h, if_false, List.mem_cons] at hp
      rcases hp with hp | hp
      · exact Or.inl (by simp [hp])
      · rcases ih hp with h1 | h1
        · exact Or.inl (List.mem_cons_of_mem _ h1)
        · exact Or.inr h1

/-! ### Batch-processing lemmas -/

theorem runBatch_length (nid : NodeID) :
    ∀ (pairs : List TransitIPRequest) (c : Conn25) (seen : List Addr),
      ((c.runBatch nid seen pairs).2).length = pairs.length := by
  intro pairs
  induction pairs with
  | nil => intro c seen; rfl
  | cons each rest ih =>
    intro c seen
    by_cases hmem : each.transitIP ∈ seen <;>
      simp [Conn25.runBatch, hmem, ih]

theorem runBatch_resp_getD (nid : NodeID) :
    ∀ (pairs : List TransitIPRequest) (c : Conn25) (seen : List Addr)
      (i : Nat) (hi : i < pairs.length),
      ((c.runBatch nid seen pairs).2).getD i ⟨.OK, ""⟩ =
        if pairs[i].transitIP ∈ seen ∨
            pairs[i].transitIP ∈ (pairs.map TransitIPRequest.transitIP).take i
        then ⟨.OtherFailure, dupeTransitIPMessage⟩
        else ⟨.OK, ""⟩ := by
  intro pairs
  induction pairs with
  | nil => intro c seen i hi; simp at hi
  | cons each rest ih =>
    intro c seen i hi
    match i with
    | 0 =>
      by_cases hmem : each.transitIP ∈ seen <;>
        simp [Conn25.runBatch, Conn25.handleTransitIPRequest, hmem]
    | i + 1 =>
      have hi1 : i < rest.length := by simpa using hi
      by_cases hmem : each.transitIP ∈ seen
      · rw [Conn25.runBatch, if_pos hmem]
        simp only [List.getD_cons_succ, List.getElem_cons_succ, List.map_cons,
          List.take_succ_cons]
        rw [ih c seen i hi1]
        have hiff :
            (rest[i].transitIP ∈ seen ∨
              rest[i].transitIP ∈ (rest.map TransitIPRequest.transitIP).take i) ↔
            (rest[i].transitIP ∈ seen ∨
              rest[i].transitIP ∈
                each.transitIP :: (rest.map TransitIPRequest.transitIP).take i) := by
          simp only [List.mem_cons]
          constructor
          · rintro (h | h)
            · exact Or.inl h
            · exact Or.inr (Or.inr h)
          · rintro (h | h | h)
            · exact Or.inl h
            · exact Or.inl (h ▸ hmem)
            · exact Or.inr h
        rw [if_congr hiff rfl rfl]
      · rw [Conn25.runBatch, if_neg hmem]
        simp only [List.getD_cons_succ, List.getElem_cons_succ, List.map_cons,
          List.take_succ_cons]
        rw [ih _ (each.transitIP :: seen) i hi1]
        have hiff :
            (rest[i].transitIP ∈ each.transitIP :: seen ∨
              rest[i].transitIP ∈ (rest.map TransitIPRequest.transitIP).take i) ↔
            (rest[i].transitIP ∈ seen ∨
              rest[i].transitIP ∈
                each.transitIP :: (rest.map TransitIPRequest.transitIP).take i) := by
          simp only [List.mem_cons]
          tauto
        rw [if_congr hiff rfl rfl]

theorem handleTransitIPRequest_target_other (c : Conn25) (nid p2 : NodeID)
    (tipr : TransitIPRequest) (T : Addr) (h : p2 ≠ nid) :
    ((c.handleTransitIPRequest nid tipr).1).transitIPTarget p2 T =
      c.transitIPTarget p2 T := by
  simp [Conn25.handleTransitIPRequest, Conn25.transitIPTarget,
    lookupA_setA_ne _ _ _ _ h]

theorem handleTransitIPRequest_target_self (c : Conn25) (nid : NodeID)
    (tipr : TransitIPRequest) :
    ((c.handleTransitIPRequest nid tipr).1).transitIPTarget nid tipr.transitIP =
      tipr.destinationIP := by
  simp [Conn25.handleTransitIPRequest, Conn25.transitIPTarget,
    lookupA_setA_self]

theorem runBatch_target_other (nid p2 : NodeID) (T : Addr) (h : p2 ≠ nid) :
    ∀ (pairs : List TransitIPRequest) (c : Conn25) (seen : List Addr),
      ((c.runBatch nid seen pairs).1).transitIPTarget p2 T =
        c.transitIPTarget p2 T := by
  intro pairs
  induction pairs with
  | nil => intro c seen; rfl
  | cons each rest ih =>
    intro c seen
    by_cases hmem : each.transitIP ∈ seen
    · rw [Conn25.runBatch, if_pos hmem]
      exact ih c seen
    · rw [Conn25.runBatch, if_neg hmem]
      show ((_ : Conn25).runBatch nid _ rest).1.transitIPTarget p2 T = _
      rw [ih _ _, handleTransitIPRequest_target_other _ _ _ _ _ h]

/-- The per-peer-submap invariant of claim C9: every peer present in the
outer map has a non-empty submap. -/
def noEmptySubmaps (c : Conn25) : Prop :=
  ∀ p ∈ c.transitIPs.getD [], p.2 ≠ ([] : List (Addr × Addr))

theorem handleTransitIPRequest_noEmptySubmaps (c : Conn25) (nid : NodeID)
    (tipr : TransitIPRequest) (h : noEmptySubmaps c) :
    noEmptySubmaps (c.handleTransitIPRequest nid tipr).1 := by
  intro p hp
  simp only [Conn25.handleTransitIPRequest, Option.getD_some] at hp
  rcases mem_setA _ _ _ _ hp with h1 | h1
  · exact h p h1
  · rw [h1]
    exact setA_ne_nil _ _ _

theorem runBatch_noEmptySubmaps (nid : NodeID) :
    ∀ (pairs : List TransitIPRequest) (c : Conn25) (seen : List Addr),
      noEmptySubmaps c → noEmptySubmaps (c.runBatch nid seen pairs).1 := by
  intro pairs
  induction pairs with
  | nil => intro c seen h; exact h
  | cons each rest ih =>
    intro c seen h
    by_cases hmem : each.transitIP ∈ seen
    · rw [Conn25.runBatch, if_pos hmem]
      exact ih c seen h
    · rw [Conn25.runBatch, if_neg hmem]
      exact ih _ _ (handleTransitIPRequest_noEmptySubmaps c nid each h)

/-- Registry states reachable from the initial (nil-map) state by any
sequence of registration calls; `transitIPTarget` does not mutate state,
so lookups need no constructor. -/
inductive Reachable : Conn25 → Prop where
  | base : Reachable ⟨none⟩
  | step (c : Conn25) (nid : NodeID) (req : ConnectorTransitIPRequest) :
      Reachable c → Reachable (c.HandleConnectorTransitIPRequest nid req).1

theorem runBatch_dup_erase (nid : NodeID) :
    ∀ (pairs : List TransitIPRequest) (c : Conn25) (seen : List Addr)
      (i : Nat) (hi : i < pairs.length),
      pairs[i].transitIP ∈ seen ∨
        pairs[i].transitIP ∈ (pairs.map TransitIPRequest.transitIP).take i →
      (c.runBatch nid seen pairs).1 =
          (c.runBatch nid seen (pairs.eraseIdx i)).1 ∧
        (c.runBatch nid seen pairs).2 =
          ((c.runBatch nid seen (pairs.eraseIdx i)).2).take i ++
            ⟨.OtherFailure, dupeTransitIPMessage⟩ ::
              ((c.runBatch nid seen (pairs.eraseIdx i)).2).drop i := by
  intro pairs
  induction pairs with
  | nil => intro c seen i hi; simp at hi
  | cons each rest ih =>
    intro c seen i hi hdup
    match i with
    | 0 =>
      have hmem : each.transitIP ∈ seen := by simpa using hdup
      simp [Conn25.runBatch, hmem]
    | i + 1 =>
      have hi1 : i < rest.length := by simpa using hi
      simp only [List.getElem_cons_succ, List.map_cons, List.take_succ_cons,
        List.mem_cons] at hdup
      by_cases hmem : each.transitIP ∈ seen
      · have hdup1 : rest[i].transitIP ∈ seen ∨
            rest[i].transitIP ∈ (rest.map TransitIPRequest.transitIP).take i := by
          rcases hdup with h | h | h
          · exact Or.inl h
          · exact Or.inl (h ▸ hmem)
          · exact Or.inr h
        obtain ⟨ih1, ih2⟩ := ih c seen i hi1 hdup1
        simp [Conn25.runBatch, hmem, List.eraseIdx_cons_succ,
          List.take_succ_cons, List.drop_succ_cons, ih1, ih2]
      · have hdup1 : rest[i].transitIP ∈ each.transitIP :: seen ∨
            rest[i].transitIP ∈ (rest.map TransitIPRequest.transitIP).take i := by
          rcases hdup with h | h | h
          · exact Or.inl (List.mem_cons_of_mem _ h)
          · exact Or.inl (h ▸ List.mem_cons_self _ _)
          · exact Or.inr h
        obtain ⟨ih1, ih2⟩ :=
          ih (c.handleTransitIPRequest nid each).1 (each.transitIP :: seen) i
            hi1 hdup1
        simp [Conn25.runBatch, hmem, List.eraseIdx_cons_succ,
          List.take_succ_cons, List.drop_succ_cons, ih1, ih2]

/-! ### Go error model for the closed-pipe classifiers -/

/-- Go error values relevant to the closed-pipe classifiers: platform
error codes (`syscall.Errno`), the `io.ErrClosedPipe` and `fs.ErrClosed`
root sentinels, arbitrary other errors, and a wrapper layer (an error
whose `Unwrap` yields the inner error). `none : Option GoErr` models a
nil error. -/
inductive GoErr where
  | errno (n : Nat)
  | ioErrClosedPipe
  | fsErrClosed
  | other (tag : Nat)
  | wrap (e : GoErr)
deriving DecidableEq

/-- `errors.Is(err, target)` for a non-nil `err`: compare against the
target at every layer of the unwrap chain. -/
def errIs (err target : GoErr) : Bool :=
  match err with
  | .wrap e => (GoErr.wrap e == target) || errIs e target
  | .errno n => GoErr.errno n == target
  | .ioErrClosedPipe => GoErr.ioErrClosedPipe == target
  | .fsErrClosed => GoErr.fsErrClosed == target
  | .other tag => GoErr.other tag == target

/-- `errors.Is(err, target)` including the nil case, which matches no
sentinel. -/
def goIs (err : Option GoErr) (target : GoErr) : Bool :=
  match err with
  | none => false
  | some e => errIs e target

/-- `syscall.EPIPE`; the numeric code is the Linux value, only its
distinctness from the other codes matters here. -/
def EPIPE : GoErr := .errno 32

/-- `syscall.ENOTCONN`; Linux numeric value, as for `EPIPE`. -/
def ENOTCONN : GoErr := .errno 107

/-- `IsClosedPipeError` of package `net/neterror` (the posix build):
matches the platform pipe sentinel (`EPIPE`, or Windows error 232
ERROR_NO_DATA), `ENOTCONN`, `fs.ErrClosed` and `io.ErrClosedPipe`
through `errors.Is`. `goos` models `runtime.GOOS`. -/
def neterrorIsClosedPipeError (goos : String) (err : Option GoErr) : Bool :=
  let expect := if goos = "windows" then GoErr.errno 232 else EPIPE
  goIs err expect || goIs err ENOTCONN ||
    goIs err GoErr.fsErrClosed || goIs err GoErr.ioErrClosedPipe

/-- `IsClosedPipeError` of package `ipn/localapi`: matches only the
platform pipe sentinel (`EPIPE`, or Windows error 232) and
`io.ErrClosedPipe`. -/
def localapiIsClosedPipeError (goos : String) (err : Option GoErr) : Bool :=
  let expect := if goos = "windows" then GoErr.errno 232 else EPIPE
  if goIs err expect then true
  else goIs err GoErr.ioErrClosedPipe

/-- The unwrap chain of an error: the error itself and everything it
wraps, the layers `errors.Is` inspects. -/
def unwrapChain : GoErr → List GoErr
  | .wrap e => .wrap e :: unwrapChain e
  | .errno n => [.errno n]
  | .ioErrClosedPipe => [.ioErrClosedPipe]
  | .fsErrClosed => [.fsErrClosed]
  | .other tag => [.other tag]

/-- The spec's list of conditions that "represent a closed or broken
pipe/socket" on platform `goos`: the platform pipe-closed/broken-pipe
sentinel, the not-connected sentinel, the already-closed sentinel and
the closed-pipe sentinel. -/
def specClosedPipeSentinels (goos : String) : List GoErr :=
  [if goos = "windows" then GoErr.errno 232 else EPIPE, ENOTCONN,
    GoErr.fsErrClosed, GoErr.ioErrClosedPipe]

/-- The spec's classification (from its words, for comparison with the
code): a non-nil error represents a closed or broken pipe/socket iff
some layer of its unwrap chain is one of the platform's closed-pipe
sentinel conditions; nil represents none. -/
def representsClosedPipe (goos : String) (err : Option GoErr) : Bool :=
  match err with
  | none => false
  | some e => decide (∃ s ∈ specClosedPipeSentinels goos, s ∈ unwrapChain e)

theorem errIs_true_iff (t : GoErr) :
    ∀ e, errIs e t = true ↔ t ∈ unwrapChain e := by
  intro e
  induction e with
  | errno n => simp [errIs, unwrapChain, beq_iff_eq]; exact eq_comm
  | ioErrClosedPipe => simp [errIs, unwrapChain, beq_iff_eq]; exact eq_comm
  | fsErrClosed => simp [errIs, unwrapChain, beq_iff_eq]; exact eq_comm
  | other tag => simp [errIs, unwrapChain, beq_iff_eq]; exact eq_comm
  | wrap e ih =>
    simp only [errIs, unwrapChain, Bool.or_eq_true, beq_iff_eq, ih,
      List.mem_cons]
    constructor
    · rintro (h | h)
      · exact Or.inl h.symm
      · exact Or.inr h
    · rintro (h | h)
      · exact Or.inl h.symm
      · exact Or.inr h

/-! ### Mutex-event traces for lock-placement analysis -/

/-- Mutex and update events of the registry. `handleTransitIPRequest`
brackets each single-pair update between `c.mu.Lock()` and its deferred
`c.mu.Unlock()`; the batch loop in `HandleConnectorTransitIPRequest`
itself never touches the mutex. -/
inductive LockEvent where
  | lock
  | update (nid : NodeID) (tip dest : Addr)
  | unlock
deriving DecidableEq

/-- The mutex events of one `handleTransitIPRequest` call: lock, the
single map update, unlock. -/
def handleTransitIPRequestEvents (nid : NodeID) (tipr : TransitIPRequest) :
    List LockEvent :=
  [.lock, .update nid tipr.transitIP tipr.destinationIP, .unlock]

/-- The mutex events of one `HandleConnectorTransitIPRequest` call: the
loop emits, in order, the events of each `handleTransitIPRequest` call
it makes; a duplicate pair is skipped without touching the mutex, and
the loop itself takes no lock of its own. -/
def batchEvents (nid : NodeID) (seen : List Addr) :
    List TransitIPRequest → List LockEvent
  | [] => []
  | each :: rest =>
    if each.transitIP ∈ seen then batchEvents nid seen rest
    else handleTransitIPRequestEvents nid each ++
      batchEvents nid (each.transitIP :: seen) rest

/-- Decides whether a trace consists of update events followed by one
final `unlock` and nothing after it. -/
def updatesThenUnlock : List LockEvent → Bool
  | [.unlock] => true
  | .update _ _ _ :: rest => updatesThenUnlock rest
  | _ => false

/-- Decides whether a whole trace is a single continuous critical
section: one `lock`, then only update events, then one final `unlock` —
the shape the trace of a batch would have if the mutex were held for
the batch's full duration. -/
def oneCriticalSection (tr : List LockEvent) : Bool :=
  match tr with
  | .lock :: rest => updatesThenUnlock rest
  | _ => false

/-- The pairs of a batch actually applied to the registry: the first
occurrence of each transit address not already in `seen`. -/
def dedupFirst (seen : List Addr) :
    List TransitIPRequest → List TransitIPRequest
  | [] => []
  | each :: rest =>
    if each.transitIP ∈ seen then dedupFirst seen rest
    else each :: dedupFirst (each.transitIP :: seen) rest

theorem handleSingle (c : Conn25) (nid : NodeID) (T D : Addr) :
    c.HandleConnectorTransitIPRequest nid ⟨[⟨T, D⟩]⟩ =
      ((c.handleTransitIPRequest nid ⟨T, D⟩).1, ⟨[⟨.OK, ""⟩]⟩) := by
  simp [Conn25.HandleConnectorTransitIPRequest, Conn25.runBatch,
    Conn25.handleTransitIPRequest]

theorem runBatch_resp_mem (nid : NodeID) :
    ∀ (pairs : List TransitIPRequest) (c : Conn25) (seen : List Addr)
      (r : TransitIPResponse), r ∈ (c.runBatch nid seen pairs).2 →
      r = ⟨.OK, ""⟩ ∨ r = ⟨.OtherFailure, dupeTransitIPMessage⟩ := by
  intro pairs
  induction pairs with
  | nil => intro c seen r hr; simp [Conn25.runBatch] at hr
  | cons each rest ih =>
    intro c seen r hr
    by_cases hmem : each.transitIP ∈ seen
    · rw [Conn25.runBatch, if_pos hmem] at hr
      rcases List.mem_cons.mp hr with h | h
      · exact Or.inr h
      · exact ih c seen r h
    · rw [Conn25.runBatch, if_neg hmem] at hr
      rcases List.mem_cons.mp hr with h | h
      · exact Or.inl (by rw [h]; rfl)
      · exact ih _ _ r h

/-- C8: for every peer, a registration call with an empty batch returns
an empty outcome list and leaves the registry state (including the
peer→submap mapping) completely unchanged. -/
theorem claim8_empty_batch (c : Conn25) (nid : NodeID) :
    c.HandleConnectorTransitIPRequest nid ⟨[]⟩ = (c, ⟨[]⟩) := rfl

/-- C3: a successfully applied pair (T, D) makes Lookup(P, T) return D;
registering (T, D1) and later (T, D2) for the same peer yields OK both
times with final Lookup(P, T) = D2 (latest registration wins, overwrite
is a normal success); registering the identical pair (T, D) twice in
separate calls yields OK both times and Lookup(P, T) = D. -/
theorem claim3_overwrite (c : Conn25) (nid : NodeID) (T D D1 D2 : Addr) :
    ((c.handleTransitIPRequest nid ⟨T, D⟩).1.transitIPTarget nid T = D) ∧
    ((c.HandleConnectorTransitIPRequest nid ⟨[⟨T, D1⟩]⟩).2.transitIPs =
        [⟨.OK, ""⟩] ∧
      ((c.HandleConnectorTransitIPRequest nid
            ⟨[⟨T, D1⟩]⟩).1.HandleConnectorTransitIPRequest nid
          ⟨[⟨T, D2⟩]⟩).2.transitIPs = [⟨.OK, ""⟩] ∧
      ((c.HandleConnectorTransitIPRequest nid
            ⟨[⟨T, D1⟩]⟩).1.HandleConnectorTransitIPRequest nid
          ⟨[⟨T, D2⟩]⟩).1.transitIPTarget nid T = D2) ∧
    ((c.HandleConnectorTransitIPRequest nid ⟨[⟨T, D⟩]⟩).2.transitIPs =
        [⟨.OK, ""⟩] ∧
      ((c.HandleConnectorTransitIPRequest nid
            ⟨[⟨T, D⟩]⟩).1.HandleConnectorTransitIPRequest nid
          ⟨[⟨T, D⟩]⟩).2.transitIPs = [⟨.OK, ""⟩] ∧
      ((c.HandleConnectorTransitIPRequest nid
            ⟨[⟨T, D⟩]⟩).1.HandleConnectorTransitIPRequest nid
          ⟨[⟨T, D⟩]⟩).1.transitIPTarget nid T = D) := by
  refine ⟨handleTransitIPRequest_target_self c nid ⟨T, D⟩, ⟨?_, ?_, ?_⟩,
    ⟨?_, ?_, ?_⟩⟩
  · simp [handleSingle]
  · simp [handleSingle]
  · simp only [handleSingle]
    exact handleTransitIPRequest_target_self _ nid ⟨T, D2⟩
  · simp [handleSingle]
  · simp [handleSingle]
  · simp only [handleSingle]
    exact handleTransitIPRequest_target_self _ nid ⟨T, D⟩

/-- The mapping stored for (nid, tip), as an option: `none` when the
peer has no submap or the submap lacks the transit key. Used to state
absence for C4. -/
def lookupMapping (c : Conn25) (nid : NodeID) (tip : Addr) : Option Addr :=
  (lookupA (c.transitIPs.getD []) nid).bind (fun sub => lookupA sub tip)

/-- C4: Lookup is total with no error channel; whenever no mapping
exists for (P, T) — including a never-registered peer and the fresh
nil-map registry — it returns the zero address. -/
theorem claim4_lookup_total (c : Conn25) (nid : NodeID) (tip : Addr)
    (h : lookupMapping c nid tip = none) :
    c.transitIPTarget nid tip = zeroAddr := by
  unfold Conn25.transitIPTarget
  unfold lookupMapping at h
  cases hout : lookupA (c.transitIPs.getD []) nid with
  | none => simp [hout, lookupA]
  | some sub =>
    rw [hout] at h
    simp only [Option.some_bind] at h
    simp [hout, h]

/-- Witness for C4: lookup on the fresh registry, and on a registry
where the peer registered only other addresses, returns the zero
address. -/
theorem claim4_lookup_total_witness :
    (Conn25.mk none).transitIPTarget 3 9 = zeroAddr ∧
    (Conn25.mk (some [(1, [(2, 3)])])).transitIPTarget 1 9 = zeroAddr :=
  ⟨claim4_lookup_total ⟨none⟩ 3 9 rfl,
    claim4_lookup_total ⟨some [(1, [(2, 3)])]⟩ 1 9 (by decide)⟩

/-- C7: a registration call by one peer leaves every mapping of any
other peer unchanged. -/
theorem claim7_cross_peer (c : Conn25) (nid1 nid2 : NodeID) (T : Addr)
    (pairs : List TransitIPRequest) (h : nid1 ≠ nid2) :
    ((c.HandleConnectorTransitIPRequest nid1 ⟨pairs⟩).1).transitIPTarget
        nid2 T = c.transitIPTarget nid2 T :=
  runBatch_target_other nid1 nid2 T (fun he => h he.symm) pairs c []

/-- Witness for C7: peer 1 registering (3, 4) does not affect peer 2's
lookup of 3, which stays at the zero (absent) address. -/
theorem claim7_cross_peer_witness :
    ((Conn25.mk none).HandleConnectorTransitIPRequest 1
        ⟨[⟨3, 4⟩]⟩).1.transitIPTarget 2 3 =
      (Conn25.mk none).transitIPTarget 2 3 ∧
    (Conn25.mk none).transitIPTarget 2 3 = zeroAddr :=
  ⟨claim7_cross_peer ⟨none⟩ 1 2 3 [⟨3, 4⟩] (by decide), rfl⟩

/-- C9: in every state reachable from the empty registry, every peer
present in the peer→submap mapping has a non-empty submap. -/
theorem claim9_no_empty_submaps (c : Conn25) (h : Reachable c) :
    noEmptySubmaps c := by
  induction h with
  | base => intro p hp; simp at hp
  | step c nid req hr ih => exact runBatch_noEmptySubmaps nid req.transitIPs c [] ih

/-- Witness for C9: the invariant holds of the state reached by one
registration call from the empty registry. -/
theorem claim9_no_empty_submaps_witness :
    noEmptySubmaps ((Conn25.mk none).HandleConnectorTransitIPRequest 1
      ⟨[⟨2, 3⟩]⟩).1 :=
  claim9_no_empty_submaps _ (Reachable.step _ 1 ⟨[⟨2, 3⟩]⟩ Reachable.base)

/-- C10: a pair with the zero destination is accepted with OK, after
which Lookup returns the zero address — the same value the fresh
registry returns for an absent mapping; the zero address is likewise
accepted as a transit key. -/
theorem claim10_zero_addresses (c : Conn25) (nid : NodeID) (T D : Addr) :
    (c.HandleConnectorTransitIPRequest nid ⟨[⟨T, zeroAddr⟩]⟩).2.transitIPs =
        [⟨.OK, ""⟩] ∧
    ((c.HandleConnectorTransitIPRequest nid
        ⟨[⟨T, zeroAddr⟩]⟩).1).transitIPTarget nid T = zeroAddr ∧
    (Conn25.mk none).transitIPTarget nid T = zeroAddr ∧
    (c.HandleConnectorTransitIPRequest nid ⟨[⟨zeroAddr, D⟩]⟩).2.transitIPs =
        [⟨.OK, ""⟩] ∧
    ((c.HandleConnectorTransitIPRequest nid
        ⟨[⟨zeroAddr, D⟩]⟩).1).transitIPTarget nid zeroAddr = D := by
  refine ⟨?_, ?_, rfl, ?_, ?_⟩
  · simp [handleSingle]
  · simp only [handleSingle]
    exact handleTransitIPRequest_target_self c nid ⟨T, zeroAddr⟩
  · simp [handleSingle]
  · simp only [handleSingle]
    exact handleTransitIPRequest_target_self c nid ⟨zeroAddr, D⟩

/-- C1: outcome i of a registration batch is the OtherFailure duplicate
diagnostic iff pair i's transit address equals that of some earlier pair
j < i of the same batch (membership in the first i transit addresses),
for every pre-existing registry state and destinations; and such a
rejected pair is inert: final state and all other outcomes coincide with
those of the batch with pair i removed — so the rejection changes no
registry state, stops no later pair and rolls back no earlier
application. -/
theorem claim1_duplicate_handling (c : Conn25) (nid : NodeID)
    (pairs : List TransitIPRequest) (i : Nat) (hi : i < pairs.length) :
    (((c.HandleConnectorTransitIPRequest nid ⟨pairs⟩).2.transitIPs).getD i
          ⟨.OK, ""⟩ = ⟨.OtherFailure, dupeTransitIPMessage⟩ ↔
        pairs[i].transitIP ∈ (pairs.map TransitIPRequest.transitIP).take i) ∧
    (pairs[i].transitIP ∈ (pairs.map TransitIPRequest.transitIP).take i →
      (c.HandleConnectorTransitIPRequest nid ⟨pairs⟩).1 =
          (c.HandleConnectorTransitIPRequest nid ⟨pairs.eraseIdx i⟩).1 ∧
        (c.HandleConnectorTransitIPRequest nid ⟨pairs⟩).2.transitIPs =
          ((c.HandleConnectorTransitIPRequest nid
              ⟨pairs.eraseIdx i⟩).2.transitIPs).take i ++
            ⟨.OtherFailure, dupeTransitIPMessage⟩ ::
              ((c.HandleConnectorTransitIPRequest nid
                ⟨pairs.eraseIdx i⟩).2.transitIPs).drop i) := by
  simp only [Conn25.HandleConnectorTransitIPRequest]
  refine ⟨⟨?_, ?_⟩, ?_⟩
  · intro heq
    rw [runBatch_resp_getD nid pairs c [] i hi] at heq
    by_contra hn
    simp [hn] at heq
  · intro hmem
    rw [runBatch_resp_getD nid pairs c [] i hi]
    simp [hmem]
  · intro hmem
    exact runBatch_dup_erase nid pairs c [] i hi (Or.inr hmem)

/-- Witness for C1: in the batch [(5,7), (5,9)] the second pair is
flagged as the duplicate and the final state equals that of the batch
[(5,7)] alone. -/
theorem claim1_duplicate_handling_witness :
    (((Conn25.mk none).HandleConnectorTransitIPRequest 1
          ⟨[⟨5, 7⟩, ⟨5, 9⟩]⟩).2.transitIPs).getD 1 ⟨.OK, ""⟩ =
        ⟨.OtherFailure, dupeTransitIPMessage⟩ ∧
      ((Conn25.mk none).HandleConnectorTransitIPRequest 1
          ⟨[⟨5, 7⟩, ⟨5, 9⟩]⟩).1 =
        ((Conn25.mk none).HandleConnectorTransitIPRequest 1 ⟨[⟨5, 7⟩]⟩).1 := by
  have h := claim1_duplicate_handling ⟨none⟩ 1 [⟨5, 7⟩, ⟨5, 9⟩] 1 (by decide)
  exact ⟨h.1.mpr (by decide), (h.2 (by decide)).1⟩

/-- C2: a batch of N pairs yields exactly N outcomes in input order,
outcome i being a function of pair i and the pairs before it (the
duplicate diagnostic when pair i's transit address occurred earlier in
the batch, the OK outcome otherwise), and every outcome is either OK
with an empty message or OtherFailure with a non-empty message. -/
theorem claim2_response_shape (c : Conn25) (nid : NodeID)
    (pairs : List TransitIPRequest) :
    ((c.HandleConnectorTransitIPRequest nid ⟨pairs⟩).2.transitIPs).length =
        pairs.length ∧
    (∀ i (hi : i < pairs.length),
      ((c.HandleConnectorTransitIPRequest nid ⟨pairs⟩).2.transitIPs).getD i
          ⟨.OK, ""⟩ =
        if pairs[i].transitIP ∈ (pairs.map TransitIPRequest.transitIP).take i
        then ⟨.OtherFailure, dupeTransitIPMessage⟩
        else ⟨.OK, ""⟩) ∧
    (∀ r ∈ (c.HandleConnectorTransitIPRequest nid ⟨pairs⟩).2.transitIPs,
      (r.code = .OK ∧ r.message = "") ∨
        (r.code = .OtherFailure ∧ r.message ≠ "")) := by
  simp only [Conn25.HandleConnectorTransitIPRequest]
  refine ⟨runBatch_length nid pairs c [], ?_, ?_⟩
  · intro i hi
    rw [runBatch_resp_getD nid pairs c [] i hi]
    simp
  · intro r hr
    rcases runBatch_resp_mem nid pairs c [] r hr with h | h <;> rw [h]
    · exact Or.inl ⟨rfl, rfl⟩
    · exact Or.inr ⟨rfl, by decide⟩

/-- Witness for C2 at the batch [(4,5), (4,6)]: two outcomes, the second
being the duplicate failure, which carries a non-empty message. -/
theorem claim2_response_shape_witness :
    ((Conn25.mk none).HandleConnectorTransitIPRequest 1
        ⟨[⟨4, 5⟩, ⟨4, 6⟩]⟩).2.transitIPs.length = 2 ∧
    ((Conn25.mk none).HandleConnectorTransitIPRequest 1
        ⟨[⟨4, 5⟩, ⟨4, 6⟩]⟩).2.transitIPs.getD 1 ⟨.OK, ""⟩ =
      ⟨.OtherFailure, dupeTransitIPMessage⟩ ∧
    ((⟨.OtherFailure, dupeTransitIPMessage⟩ : TransitIPResponse).code =
        .OtherFailure ∧
      (⟨.OtherFailure, dupeTransitIPMessage⟩ :
        TransitIPResponse).message ≠ "") := by
  have h := claim2_response_shape ⟨none⟩ 1 [⟨4, 5⟩, ⟨4, 6⟩]
  refine ⟨h.1, ?_, ?_⟩
  · have h2 := h.2.1 1 (by decide)
    rw [if_pos (by decide)] at h2
    exact h2
  · exact (h.2.2 ⟨.OtherFailure, dupeTransitIPMessage⟩ (by decide)).resolve_left
      (by decide)

/-- C5 counterexample: in a two-pair batch the mutex trace is two
separate critical sections — it contains an unlock before the second
pair's update — so no single exclusive lock is held continuously for
the full duration of the batch, contrary to the claim. -/
theorem claim5_counterexample :
    batchEvents 1 [] [⟨1, 2⟩, ⟨3, 4⟩] =
      [.lock, .update 1 1 2, .unlock, .lock, .update 1 3 4, .unlock] ∧
    oneCriticalSection (batchEvents 1 [] [⟨1, 2⟩, ⟨3, 4⟩]) = false := by
  decide

/-- C5 amended: the mutex is acquired and released once per applied
pair, not across the batch: a batch's mutex trace is the concatenation
of one lock–update–unlock critical section per non-duplicate pair, and
each such per-pair block is itself a single continuous critical
section (so a single pair's update is atomic, but the batch as a whole
is not). -/
theorem claim5_per_pair_lock (nid : NodeID) :
    (∀ (pairs : List TransitIPRequest) (seen : List Addr),
      batchEvents nid seen pairs =
        ((dedupFirst seen pairs).map
          (handleTransitIPRequestEvents nid)).flatten) ∧
    (∀ p : TransitIPRequest,
      oneCriticalSection (handleTransitIPRequestEvents nid p) = true) := by
  constructor
  · intro pairs
    induction pairs with
    | nil => intro seen; rfl
    | cons each rest ih =>
      intro seen
      by_cases hmem : each.transitIP ∈ seen <;>
        simp [batchEvents, dedupFirst, hmem, ih]
  · intro p
    rfl

theorem localapi_eq_or (goos : String) (err : Option GoErr) :
    localapiIsClosedPipeError goos err =
      (goIs err (if goos = "windows" then GoErr.errno 232 else EPIPE) ||
        goIs err GoErr.ioErrClosedPipe) := by
  unfold localapiIsClosedPipeError
  cases h : goIs err (if goos = "windows" then GoErr.errno 232 else EPIPE) <;>
    simp [h]

/-- C6 counterexample: the localapi IsClosedPipeError returns false for
the not-connected condition (ENOTCONN) and for a wrapped already-closed
sentinel (fs.ErrClosed), both of which represent a closed or broken
pipe/socket per the spec (and are accepted by the neterror version), so
the claimed iff fails for the localapi classifier. -/
theorem claim6_counterexample :
    localapiIsClosedPipeError "linux" (some ENOTCONN) = false ∧
    representsClosedPipe "linux" (some ENOTCONN) = true ∧
    localapiIsClosedPipeError "linux"
        (some (GoErr.wrap GoErr.fsErrClosed)) = false ∧
    representsClosedPipe "linux" (some (GoErr.wrap GoErr.fsErrClosed)) = true ∧
    neterrorIsClosedPipeError "linux" (some ENOTCONN) = true := by
  decide

/-- C6 amended: the net/neterror classifier returns true exactly when
the error represents one of the four closed-pipe conditions of the spec
(wrapped sentinels included) and false for every other error and for
nil; the localapi variant is sound but incomplete — every error it
accepts represents a closed pipe, but it detects only the platform pipe
sentinel and io.ErrClosedPipe, not the not-connected or already-closed
conditions. -/
theorem claim6_closed_pipe_classifiers (goos : String) (err : Option GoErr) :
    neterrorIsClosedPipeError goos err = representsClosedPipe goos err ∧
    (localapiIsClosedPipeError goos err = true →
      representsClosedPipe goos err = true) := by
  have hmain : neterrorIsClosedPipeError goos err =
      representsClosedPipe goos err := by
    cases err with
    | none => rfl
    | some e =>
      rw [Bool.eq_iff_iff]
      simp only [neterrorIsClosedPipeError, representsClosedPipe, goIs,
        specClosedPipeSentinels, Bool.or_eq_true, errIs_true_iff,
        decide_eq_true_eq, List.exists_mem_cons_iff, List.not_mem_nil]
      tauto
  refine ⟨hmain, fun h => ?_⟩
  rw [← hmain]
  rw [localapi_eq_or] at h
  simp only [neterrorIsClosedPipeError, Bool.or_eq_true]
  simp only [Bool.or_eq_true] at h
  tauto

/-- Witness for C6: a wrapped io.ErrClosedPipe is accepted by the
localapi classifier and hence represents a closed pipe, matching the
neterror classifier's verdict. -/
theorem claim6_closed_pipe_classifiers_witness :
    representsClosedPipe "linux" (some (GoErr.wrap GoErr.ioErrClosedPipe)) =
        true ∧
      neterrorIsClosedPipeError "linux"
          (some (GoErr.wrap GoErr.ioErrClosedPipe)) =
        representsClosedPipe "linux" (some (GoErr.wrap GoErr.ioErrClosedPipe)) :=
  ⟨(claim6_closed_pipe_classifiers "linux"
      (some (GoErr.wrap GoErr.ioErrClosedPipe))).2 (by decide),
    (claim6_closed_pipe_classifiers "linux"
      (some (GoErr.wrap GoErr.ioErrClosedPipe))).1⟩
